import Mathlib

/-!
Verification of the Yappi CRM sheet-write engine.

This file gives a shallow embedding of the parts of the repository that the
checked properties concern:

* `src/config/sheets_config.py` — the static sheet registry (`SHEETS_CONFIG`,
  `get_sheet_config`);
* `src/services/sheets/client.py` — row placement (`get_first_empty_row`),
  the FIFO payment allocator (`distribute_payment_fifo`), the read-side
  earnings aggregation (`designer_earnings` from
  `get_designers_with_earnings`), and the GENERAL-sheet derived fields and
  running wallet balances (`write_to_general`);
* `src/services/sheets/transaction.py` — the compensating-rollback
  transaction (`SheetTransaction.commit` / `_rollback`);
* `src/bot/handlers/orders.py` — the input-side validation handlers
  (`enter_percent`, `enter_salary`) and the payment preview loop
  (`payment_enter_amount`).

Money amounts are modelled as rationals (the Python code uses floats; all
checked properties are exact arithmetic identities, so ℚ is the faithful
idealisation).  A raised Python exception is modelled as `Option`/`Except`
failure.  The spreadsheet backing store is modelled as explicit state that
each operation threads through.
-/

namespace Yappi

/-! ## Sheet configuration (`src/config/sheets_config.py`) -/

/-- Configuration record for a single sheet, mirroring the Python dataclass
`SheetConfig`.  `columns` and `protected_columns` are column letters; rows are
1-based as in the source. -/
structure SheetConfig where
  name : String
  id_column : String := "A"
  data_columns : String := "B:Z"
  start_row : Nat := 2
  columns : List String := []
  protected_columns : List String := []
  skip_rows : List Nat := []
deriving Repr, DecidableEq

/-- `DESIGNER_DATA` from `sheets_config.py`. -/
def DESIGNER_DATA : SheetConfig :=
  { name := "Дизайнер DATA"
    id_column := "A"
    data_columns := "F:K"
    start_row := 19
    protected_columns := ["B", "C", "D", "E"]
    skip_rows := [20]
    columns := ["operation_id", "date", "designer", "client", "amount", "percent", "salary"] }

/-- `CLIENTS_DATA` from `sheets_config.py`. -/
def CLIENTS_DATA : SheetConfig :=
  { name := "Заказчики DATA"
    id_column := "A"
    data_columns := "F:L"
    start_row := 13
    protected_columns := ["B", "C", "D", "E"]
    columns := ["date", "client", "status", "amount", "paid", "debt", "overpaid"] }

/-- `EXPENSES` from `sheets_config.py`. -/
def EXPENSES : SheetConfig :=
  { name := "Расходы"
    id_column := "A"
    data_columns := "F:H"
    start_row := 12
    protected_columns := ["B", "C", "D", "E"]
    columns := ["date", "category", "amount"] }

/-- `PURE_INCOME` from `sheets_config.py`. -/
def PURE_INCOME : SheetConfig :=
  { name := "Чистый доход"
    id_column := "A"
    data_columns := "F:H"
    start_row := 14
    protected_columns := ["B", "C", "D", "E"]
    columns := ["date", "category", "amount"] }

/-- `GENERAL` from `sheets_config.py`. -/
def GENERAL : SheetConfig :=
  { name := "GENERAL"
    id_column := "A"
    data_columns := "G:U"
    start_row := 13
    protected_columns := ["B", "C", "D", "E"]
    skip_rows := [9, 10, 11, 12]
    columns := ["date", "designer", "client", "order_amount", "paid", "debt", "overpaid",
                "designer_percent", "designer_salary", "pure_category", "pure_amount",
                "expense_category", "expense_amount", "balance_1", "balance_2"] }

/-- `PAYMENTS` from `sheets_config.py`. -/
def PAYMENTS : SheetConfig :=
  { name := "Оплаты"
    id_column := "A"
    data_columns := "B:F"
    start_row := 2
    columns := ["operation_id", "date", "client", "order_id", "payment_type", "amount"] }

/-- `CATEGORIES` from `sheets_config.py`. -/
def CATEGORIES : SheetConfig :=
  { name := "Категории"
    id_column := "A"
    data_columns := "B:E"
    start_row := 2
    columns := ["operation_id", "type", "name", "status", "created_at"] }

/-- The sheets registry `SHEETS_CONFIG`: exactly the seven keys registered in
`sheets_config.py`. -/
def SHEETS_CONFIG : List (String × SheetConfig) :=
  [("designer_data", DESIGNER_DATA),
   ("clients_data", CLIENTS_DATA),
   ("expenses", EXPENSES),
   ("pure_income", PURE_INCOME),
   ("general", GENERAL),
   ("payments", PAYMENTS),
   ("categories", CATEGORIES)]

/-- `get_sheet_config(sheet_key)`: dictionary lookup in `SHEETS_CONFIG`.
`none` models the `KeyError` the Python function raises for an unknown
key. -/
def get_sheet_config (sheet_key : String) : Option SheetConfig :=
  (SHEETS_CONFIG.find? (fun p => p.1 == sheet_key)).map (·.2)

/-! ## Row placement (`SheetsClient.get_first_empty_row`, client.py 446-510) -/

/-- Emptiness test on one read row of the check column:
`not row or row[0] == "" or row[0] is None`. -/
def cell_is_empty (row : List String) : Bool :=
  row.isEmpty || row.head? == some ""

/-- One step of `while result_row in config.skip_rows: result_row += 1`,
with explicit fuel; the Python loop terminates because the skip list is
finite, and `skip_rows.length + 1` units of fuel are always sufficient
(at most `skip_rows.length` consecutive rows can be members). -/
def skip_past_fueled (fuel : Nat) (skip_rows : List Nat) (r : Nat) : Nat :=
  match fuel with
  | 0 => r
  | fuel + 1 => if r ∈ skip_rows then skip_past_fueled fuel skip_rows (r + 1) else r

/-- Advance a row index past every configured skip row. -/
def skip_past (skip_rows : List Nat) (r : Nat) : Nat :=
  skip_past_fueled (skip_rows.length + 1) skip_rows r

/-- The scan loop of `get_first_empty_row`: `for i, row in enumerate(data)`,
skipping rows in `skip_rows` and returning the first row whose check-column
cell is empty. `i` is the enumeration index. -/
def first_empty_scan (start_row : Nat) (skip_rows : List Nat) :
    Nat → List (List String) → Option Nat
  | _, [] => none
  | i, row :: rest =>
    if start_row + i ∈ skip_rows then first_empty_scan start_row skip_rows (i + 1) rest
    else if cell_is_empty row then some (start_row + i)
    else first_empty_scan start_row skip_rows (i + 1) rest

/-- The body of `get_first_empty_row` (client.py 473-510), the code that
runs after the check column has been resolved.  `read_result` is the
outcome of `get_range` on the check column from `start_row` through the
lookahead window: `none` models the `HttpError` raised when the sheet has no
data; `some data` is the list of returned rows (the backing store truncates
trailing empty rows, so `data` ends at the last row read). -/
def get_first_empty_row_body (start_row : Nat) (skip_rows : List Nat)
    (read_result : Option (List (List String))) : Nat :=
  match read_result with
  | none => skip_past skip_rows start_row
  | some data =>
    if data.isEmpty then skip_past skip_rows start_row
    else
      match first_empty_scan start_row skip_rows 0 data with
      | some r => r
      | none => skip_past skip_rows (start_row + data.length)

/-- The attribute lookup `config.check_column` evaluated by client.py 471.
The `SheetConfig` dataclass (sheets_config.py 15-39) declares no
`check_column` field and no code ever assigns one, so for every config the
lookup fails — `none` models the `AttributeError` Python raises. -/
def sheet_config_check_column (_config : SheetConfig) : Option String := none

/-- Line 471 of client.py:
`col_to_check = check_column or config.check_column or config.data_start_col`.
A truthy explicit `check_column` argument (`some col`) short-circuits;
otherwise `config.check_column` is evaluated, which raises `AttributeError`
(see `sheet_config_check_column`) — so the final `config.data_start_col`
alternative is unreachable. -/
def resolve_check_column (check_column : Option String) (config : SheetConfig) :
    Except String String :=
  match check_column with
  | some col => Except.ok col
  | none =>
    match sheet_config_check_column config with
    | some col => Except.ok col
    | none => Except.error "AttributeError: check_column"

/-- `get_first_empty_row` (client.py 446-510), with its prologue: the check
column is resolved first; only when that succeeds does the read-and-scan
body run.  Callers in the repository (notably `write_row`, client.py 566)
pass no `check_column` argument, so the resolution step raises before any
read. -/
def get_first_empty_row (check_column : Option String) (config : SheetConfig)
    (read_result : Option (List (List String))) : Except String Nat :=
  match resolve_check_column check_column config with
  | Except.error e => Except.error e
  | Except.ok _col =>
    Except.ok (get_first_empty_row_body config.start_row config.skip_rows read_result)

/-! ## Financial calculator -/

/-- Debt as computed in `write_to_general` (client.py 2294):
`max(0, order_amount - actual_payment) if order_amount > 0 else 0`. -/
def general_debt (order_amount actual_payment : ℚ) : ℚ :=
  if 0 < order_amount then max 0 (order_amount - actual_payment) else 0

/-- Overpayment as computed in `write_to_general` (client.py 2295):
`max(0, actual_payment - order_amount) if actual_payment > order_amount else 0`. -/
def general_overpayment (order_amount actual_payment : ℚ) : ℚ :=
  if order_amount < actual_payment then max 0 (actual_payment - order_amount) else 0

/-- Read-side designer earnings for one row, from
`get_designers_with_earnings` (client.py 1574-1586): use the salary when
positive, otherwise the percent with the `< 1` fraction heuristic. -/
def designer_earnings (amount percent salary : ℚ) : ℚ :=
  if 0 < salary then salary
  else if 0 < percent ∧ 0 < amount then
    (if percent < 1 then amount * percent else amount * percent / 100)
  else 0

/-- The spec's normalisation rule, written from the spec's own words:
"normalize(p) = p/100 if p > 1 else p".  Kept separate from the code-derived
definitions so the two can be compared. -/
def normalize_spec (p : ℚ) : ℚ :=
  if 1 < p then p / 100 else p

/-- The normalisation the code actually performs (client.py 1579-1584): the
fraction branch is taken when `percent < 1`, so every `percent ≥ 1` —
including exactly 1 — is divided by 100. -/
def normalize_code (p : ℚ) : ℚ :=
  if p < 1 then p else p / 100

/-- Input-side percent handler `enter_percent` (orders.py 398-431): percent
outside [0,100] is rejected; otherwise returns the computed
`(designer_salary, agency_income)` pair, with the entered percent always
interpreted as a whole percentage. `none` models the re-prompt on a
validation error (no write happens). -/
def enter_percent (amount percent : ℚ) : Option (ℚ × ℚ) :=
  if percent < 0 ∨ 100 < percent then none
  else some (amount * (percent / 100), amount - amount * (percent / 100))

/-- Input-side salary handler `enter_salary` (orders.py 434-468): negative
salary and `salary > amount` are both rejected before any write; otherwise
returns `(designer_salary, agency_income)`. -/
def enter_salary (amount salary : ℚ) : Option (ℚ × ℚ) :=
  if salary < 0 then none
  else if amount < salary then none
  else some (salary, amount - salary)

/-! ## FIFO payment allocation
(`SheetsClient.distribute_payment_fifo`, client.py 1098-1156, and the
preview loop in `payment_enter_amount`, orders.py 1117-1188) -/

/-- One parsed client-ledger order row, as produced by
`get_client_orders_with_debt`. -/
structure ClientOrder where
  row : Nat
  date : String
  amount : ℚ
  paid : ℚ
  debt : ℚ
deriving Repr, DecidableEq

/-- One allocation record, the dict appended to `updates` /
`distribution`. -/
structure PaymentUpdate where
  row : Nat
  date : String
  amount : ℚ
  old_paid : ℚ
  new_paid : ℚ
  applied : ℚ
  remaining_debt : ℚ
deriving Repr, DecidableEq

/-- The paid column (column J of "Заказчики DATA") of the backing store,
modelled as the cell contents per row number. -/
def PaidStore : Type := Nat → ℚ

/-- `update_cell` on column J: overwrite one cell, leaving every other row
unchanged. -/
def update_cell_j (store : PaidStore) (row : Nat) (value : ℚ) : PaidStore :=
  fun r => if r = row then value else store r

/-- The loop body of `distribute_payment_fifo`: walk the debt-bearing orders
in the given order, apply `min(remaining, debt)` to each, write the new paid
value back with `update_cell`, and stop once the remaining payment is
exhausted.  Returns the updates list together with the mutated store. -/
def distribute_go (store : PaidStore) (remaining : ℚ) :
    List ClientOrder → List PaymentUpdate × PaidStore
  | [] => ([], store)
  | o :: rest =>
    if remaining ≤ 0 then ([], store)
    else
      let to_apply := min remaining o.debt
      let new_paid := o.paid + to_apply
      let store1 := update_cell_j store o.row new_paid
      let next := distribute_go store1 (remaining - to_apply) rest
      (⟨o.row, o.date, o.amount, o.paid, new_paid, to_apply, o.debt - to_apply⟩ :: next.1,
       next.2)

/-- `distribute_payment_fifo` (client.py 1098-1156): filter to the orders
with positive debt, return immediately when there are none, else run the
allocation loop.  The orders list is the caller-ordered (oldest-first)
result of `get_client_orders_with_debt`. -/
def distribute_payment_fifo (store : PaidStore) (orders : List ClientOrder)
    (payment_amount : ℚ) : List PaymentUpdate × PaidStore :=
  let orders_with_debt := orders.filter (fun o => 0 < o.debt)
  if orders_with_debt.isEmpty then ([], store)
  else distribute_go store payment_amount orders_with_debt

/-- The pure preview loop of `payment_enter_amount` (orders.py 1133-1154):
identical walk, no store writes, and the leftover `remaining` is returned
(saved as `remaining_after`). -/
def payment_preview_go (remaining : ℚ) :
    List ClientOrder → List PaymentUpdate × ℚ
  | [] => ([], remaining)
  | o :: rest =>
    if remaining ≤ 0 then ([], remaining)
    else
      let to_apply := min remaining o.debt
      let next := payment_preview_go (remaining - to_apply) rest
      (⟨o.row, o.date, o.amount, o.paid, o.paid + to_apply, to_apply, o.debt - to_apply⟩ ::
         next.1,
       next.2)

/-- `payment_enter_amount` distribution computation: filter to positive debt
then run the preview loop on the full payment amount. -/
def payment_enter_amount (orders : List ClientOrder) (amount : ℚ) :
    List PaymentUpdate × ℚ :=
  payment_preview_go amount (orders.filter (fun o => 0 < o.debt))

/-! ## GENERAL sheet wallet balances (`write_to_general`, client.py 2266-2384) -/

/-- Read one balance cell the way `write_to_general` reads the previous
row's T/U cells: an empty cell (modelled `none`) counts as 0. -/
def read_balance_cell (c : Option ℚ) : ℚ :=
  c.getD 0

/-- New operational-wallet cell T (client.py 2348-2357):
`prev + wallet_operational - expense_amount` when there is any operational
flow, otherwise the previous balance is carried over. -/
def general_t_value (prev_t wallet_operational expense_amount : ℚ) : ℚ :=
  if 0 < wallet_operational ∨ 0 < expense_amount then
    prev_t + wallet_operational - expense_amount
  else prev_t

/-- New reserve-wallet cell U (client.py 2360-2366): `prev + wallet_reserve`
on inflow; with no inflow the previous balance is carried over when
positive, and the cell is written empty (`none`, the Python `""`)
otherwise. -/
def general_u_value (prev_u wallet_reserve : ℚ) : Option ℚ :=
  if 0 < wallet_reserve then some (prev_u + wallet_reserve)
  else if 0 < prev_u then some prev_u else none

/-- One GENERAL write is characterised, for the balance columns, by the
triple (wallet_operational, expense_amount, wallet_reserve). -/
structure GeneralWrite where
  wallet_operational : ℚ
  expense_amount : ℚ
  wallet_reserve : ℚ
deriving Repr, DecidableEq

/-- Sequential GENERAL writes: each write reads the previous row's T and U
cells (0 when there is no previous row yet) and stores the new pair.
Returns the list of stored (T, U) cell pairs, in write order. -/
def general_balances_go (prev_t prev_u : ℚ) :
    List GeneralWrite → List (ℚ × Option ℚ)
  | [] => []
  | w :: rest =>
    let t := general_t_value prev_t w.wallet_operational w.expense_amount
    let u := general_u_value prev_u w.wallet_reserve
    (t, u) :: general_balances_go t (read_balance_cell u) rest

/-- Balance cells produced by a sequence of GENERAL writes starting from an
empty table. -/
def general_balances (writes : List GeneralWrite) : List (ℚ × Option ℚ) :=
  general_balances_go 0 0 writes

/-! ## The GENERAL config lookups (`write_to_general` prologue, client.py
2216-2226, and `delete_general_row_by_operation_id`, client.py 2492-2510) -/

/-- The prologue of `write_to_general`: it looks up the sheet-config keys
"general_pl" and then "general_data" before anything else; only with both
configs in hand does the body — abstracted here as the continuation
`store_action`, which performs every backing-store interaction — run.
`Except.error` models the uncaught `KeyError`. -/
def write_to_general_head {α : Type} (store_action : SheetConfig → SheetConfig → α) :
    Except String α :=
  match get_sheet_config "general_pl" with
  | none => Except.error "KeyError: general_pl"
  | some pl_config =>
    match get_sheet_config "general_data" with
    | none => Except.error "KeyError: general_data"
    | some data_config => Except.ok (store_action pl_config data_config)

/-- The prologue of `delete_general_row_by_operation_id`: it looks up
"general_data" before reading anything from the sheet; `store_action` is
the rest of the function (the scan of column A and the row delete). -/
def delete_general_row_head {α : Type} (store_action : SheetConfig → α) :
    Except String α :=
  match get_sheet_config "general_data" with
  | none => Except.error "KeyError: general_data"
  | some data_config => Except.ok (store_action data_config)

/-! ## Transaction coordinator (`src/services/sheets/transaction.py`) -/

/-- `SheetOperation` (transaction.py 35-42); the status field is represented
by which result list the operation ends up in. -/
structure SheetOperation where
  sheet_key : String
  data : List String
  operation_id : String
deriving Repr, DecidableEq

/-- `TransactionResult` (transaction.py 45-52). -/
structure TransactionResult where
  success : Bool
  operation_id : String
  committed_operations : List SheetOperation
  failed_operation : Option SheetOperation
  error : Option String
deriving Repr, DecidableEq

/-- One sheet, as the transaction machinery sees it: a list of physical
rows, each either empty/cleared (`none`) or holding an operation id and its
data cells. -/
def Table : Type := List (Option (String × List String))

/-- The whole backing store: one table per sheet key. -/
def Store : Type := String → Table

/-- Replace one sheet's table in the store. -/
def store_update (s : Store) (key : String) (t : Table) : Store :=
  fun k => if k = key then t else s k

/-- Does this row carry the given operation id? -/
def cell_matches_id (c : Option (String × List String)) (id : String) : Bool :=
  match c with
  | some p => p.1 == id
  | none => false

/-- `write_row`: place the id and data at the first empty row (an empty
check-column cell, i.e. a `none` slot), appending past the end when every
row is occupied. -/
def table_write (t : Table) (id : String) (data : List String) : Table :=
  match t with
  | [] => [some (id, data)]
  | none :: rest => some (id, data) :: rest
  | some c :: rest => some c :: table_write rest id data

/-- `find_row_by_operation_id` (client.py 660-690): linear scan of the id
column, first match wins; `none` when the id is absent. The returned index
is relative to the table's first row. -/
def find_row_by_operation_id (t : Table) (id : String) : Option Nat :=
  match t with
  | [] => none
  | c :: rest =>
    if cell_matches_id c id then some 0
    else (find_row_by_operation_id rest id).map (· + 1)

/-- `delete_row_by_operation_id` (client.py 1158-1184): locate the first row
carrying the id and clear it in place (the row keeps its position; only its
cells are blanked); `false` when the id is not found. -/
def delete_row_by_operation_id (t : Table) (id : String) : Bool × Table :=
  match t with
  | [] => (false, [])
  | c :: rest =>
    if cell_matches_id c id then (true, none :: rest)
    else
      let next := delete_row_by_operation_id rest id
      (next.1, c :: next.2)

/-- `SheetTransaction._rollback` (transaction.py 184-203): issue one
compensating delete, keyed by the shared operation id, per committed
operation, in list order; operations whose delete succeeded are the ones
marked `ROLLED_BACK`. Returns the store after the deletes and the
rolled-back sublist. -/
def rollback (s : Store) : List SheetOperation → Store × List SheetOperation
  | [] => (s, [])
  | op :: rest =>
    let d := delete_row_by_operation_id (s op.sheet_key) op.operation_id
    let next := rollback (store_update s op.sheet_key d.2) rest
    (next.1, if d.1 then op :: next.2 else next.2)

/-- The commit loop of `SheetTransaction.commit` (transaction.py 133-182).
Each queued operation is paired with the outcome of its backing-store write
(`true` = the write succeeds, `false` = it raises).  `committed` is the
accumulator of already-committed operations, newest first.  On the first
failing write the committed operations are rolled back and a failure result
is returned; when every write succeeds the transaction commits. -/
def commit_go (s : Store) (txid : String) (committed : List SheetOperation) :
    List (SheetOperation × Bool) → TransactionResult × Store
  | [] => (⟨true, txid, committed.reverse, none, none⟩, s)
  | (op, ok) :: rest =>
    if ok then
      let t := table_write (s op.sheet_key) op.operation_id op.data
      commit_go (store_update s op.sheet_key t) txid (op :: committed) rest
    else
      let rb := rollback s committed.reverse
      (⟨false, txid, rb.2, some op, some "write failed"⟩, rb.1)

/-- `SheetTransaction.commit`: run the queued operations in the order they
were added.  An empty queue returns success immediately (transaction.py
122-127) without touching the store — which the general loop also does. -/
def commit (s : Store) (txid : String) (ops : List (SheetOperation × Bool)) :
    TransactionResult × Store :=
  commit_go s txid [] ops

/-- Rows of the given transaction id present in a table. -/
def table_count_id (t : Table) (id : String) : Nat :=
  t.countP (fun c => cell_matches_id c id)

/-- How many of the listed operations target the given sheet key. -/
def ops_count_for (ops : List SheetOperation) (k : String) : Nat :=
  ops.countP (fun op => op.sheet_key == k)

/-! ## Concrete fixtures used by the scenario theorems -/

/-- A client's ledger rows with debts 100, 50, 30, oldest first (the
spec's FIFO scenario). -/
def fifo_orders : List ClientOrder :=
  [⟨13, "01.01.2024", 100, 0, 100⟩,
   ⟨14, "02.01.2024", 50, 0, 50⟩,
   ⟨15, "03.01.2024", 30, 0, 30⟩]

/-- A paid-column store with every cell 0. -/
def zero_paid_store : PaidStore := fun _ => 0

/-- A backing store with every table empty. -/
def empty_store : Store := fun _ => []

/-- First queued write of the demo transaction. -/
def demo_op1 : SheetOperation := ⟨"designer_data", ["o1"], "tx1"⟩

/-- Second queued write of the demo transaction. -/
def demo_op2 : SheetOperation := ⟨"clients_data", ["o2"], "tx1"⟩

/-! ## Claim theorems -/

/-- C3: for every order with `order_amount ≥ 0` and `actual_payment ≥ 0`,
the GENERAL-sheet computation gives `debt = max(0, order_amount -
actual_payment)` and `overpayment = max(0, actual_payment - order_amount)`,
debt and overpayment are never simultaneously positive, and exactly one of
{debt > 0, overpayment > 0, both zero} holds. -/
theorem debt_overpayment_exclusive (oa ap : ℚ) (hoa : 0 ≤ oa) (hap : 0 ≤ ap) :
    general_debt oa ap = max 0 (oa - ap) ∧
    general_overpayment oa ap = max 0 (ap - oa) ∧
    ¬(0 < general_debt oa ap ∧ 0 < general_overpayment oa ap) ∧
    ((0 < general_debt oa ap ∧ general_overpayment oa ap = 0) ∨
     (0 < general_overpayment oa ap ∧ general_debt oa ap = 0) ∨
     (general_debt oa ap = 0 ∧ general_overpayment oa ap = 0)) := by
  have h₁ : general_debt oa ap = max 0 (oa - ap) := by
    unfold general_debt
    split
    · rfl
    · rename_i h
      push_neg at h
      have hle : oa - ap ≤ 0 := by linarith
      exact (max_eq_left hle).symm
  have h₂ : general_overpayment oa ap = max 0 (ap - oa) := by
    unfold general_overpayment
    split
    · rfl
    · rename_i h
      push_neg at h
      have hle : ap - oa ≤ 0 := by linarith
      exact (max_eq_left hle).symm
  refine ⟨h₁, h₂, ?_, ?_⟩
  · rintro ⟨hd, ho⟩
    rw [h₁, lt_max_iff] at hd
    rw [h₂, lt_max_iff] at ho
    rcases hd with hd | hd
    · exact lt_irrefl 0 hd
    rcases ho with ho | ho
    · exact lt_irrefl 0 ho
    linarith
  · rcases lt_trichotomy oa ap with h | h | h
    · refine Or.inr (Or.inl ⟨?_, ?_⟩)
      · rw [h₂, lt_max_iff]; right; linarith
      · rw [h₁, max_eq_left (by linarith)]
    · refine Or.inr (Or.inr ⟨?_, ?_⟩)
      · rw [h₁, max_eq_left (by simp [h])]
      · rw [h₂, max_eq_left (by simp [h])]
    · refine Or.inl ⟨?_, ?_⟩
      · rw [h₁, lt_max_iff]; right; linarith
      · rw [h₂, max_eq_left (by linarith)]

/-- Witness for C3 at order_amount 100, actual_payment 30. -/
theorem debt_overpayment_exclusive_witness :
    general_debt 100 30 = max 0 ((100 : ℚ) - 30) ∧
    general_overpayment 100 30 = max 0 ((30 : ℚ) - 100) ∧
    ¬(0 < general_debt 100 30 ∧ 0 < general_overpayment 100 30) ∧
    ((0 < general_debt 100 30 ∧ general_overpayment 100 30 = 0) ∨
     (0 < general_overpayment 100 30 ∧ general_debt 100 30 = 0) ∨
     (general_debt 100 30 = 0 ∧ general_overpayment 100 30 = 0)) :=
  debt_overpayment_exclusive 100 30 (by norm_num) (by norm_num)

/-- C4 counterexample: at percent exactly 1 the code and the spec's
normalisation rule disagree.  The read-side aggregator tests `percent < 1`
(client.py 1579), so percent 1 is divided by 100 and a 100-amount order
yields earnings 1; the spec's `normalize(p) = p/100 if p > 1 else p` leaves
1 unchanged and predicts earnings 100. -/
theorem percent_normalize_counterexample :
    designer_earnings 100 1 0 = 1 ∧
    (100 : ℚ) * normalize_spec 1 = 100 ∧
    designer_earnings 100 1 0 ≠ 100 * normalize_spec 1 := by
  refine ⟨?_, ?_, ?_⟩ <;> norm_num [designer_earnings, normalize_spec]

/-- C4 (amended): with the code's normalisation — `p/100` when `p ≥ 1`,
`p` unchanged when `p < 1` — every percent-model row (positive amount and
percent, no salary) has read-side earnings `amount * normalize_code
percent`; the derived agency income `amount - earnings` sums with the
earnings back to the order amount exactly; percent 40 and percent 0.4
denote the same forty percent; and the input handler accepts a whole
percent in [0,100], computing the complementary split. -/
theorem percent_model_earnings (amount percent : ℚ)
    (ha : 0 < amount) (hp : 0 < percent) :
    designer_earnings amount percent 0 = amount * normalize_code percent ∧
    (amount - amount * normalize_code percent) + amount * normalize_code percent = amount ∧
    designer_earnings amount 40 0 = designer_earnings amount (2/5) 0 ∧
    (0 ≤ percent → percent ≤ 100 →
      enter_percent amount percent =
        some (amount * (percent / 100), amount - amount * (percent / 100))) := by
  refine ⟨?_, by ring, ?_, ?_⟩
  · unfold designer_earnings normalize_code
    rw [if_neg (lt_irrefl 0), if_pos ⟨hp, ha⟩]
    split <;> ring
  · unfold designer_earnings
    rw [if_neg (lt_irrefl 0), if_neg (lt_irrefl 0),
      if_pos (⟨by norm_num, ha⟩ : (0 : ℚ) < 40 ∧ 0 < amount),
      if_pos (⟨by norm_num, ha⟩ : (0 : ℚ) < 2/5 ∧ 0 < amount)]
    norm_num
    ring
  · intro h0 h100
    unfold enter_percent
    rw [if_neg]
    push_neg
    exact ⟨h0, h100⟩

/-- Witness for C4 (amended) at amount 100, percent 40. -/
theorem percent_model_earnings_witness :
    designer_earnings 100 40 0 = 100 * normalize_code 40 ∧
    ((100 : ℚ) - 100 * normalize_code 40) + 100 * normalize_code 40 = 100 ∧
    designer_earnings 100 40 0 = designer_earnings 100 (2/5) 0 ∧
    ((0 : ℚ) ≤ 40 → (40 : ℚ) ≤ 100 →
      enter_percent 100 40 = some (100 * ((40 : ℚ) / 100), 100 - 100 * ((40 : ℚ) / 100))) :=
  percent_model_earnings 100 40 (by norm_num) (by norm_num)

/-- C5 counterexample: for a row at rest with salary 150 on a 100-amount
order, the read-side aggregator returns the salary unclamped (client.py
1576-1577), not `min(salary, order_amount)` — it does not clamp historical
data to the order amount. -/
theorem salary_clamp_counterexample :
    designer_earnings 100 0 150 = 150 ∧
    min (150 : ℚ) 100 = 100 ∧
    designer_earnings 100 0 150 ≠ min 150 100 := by
  refine ⟨?_, ?_, ?_⟩ <;> norm_num [designer_earnings]

/-- C5 (amended): new input with salary exceeding the order amount is
rejected by `enter_salary` with a validation error before any write;
accepted input (0 ≤ salary ≤ amount) is stored with the complementary
agency income, and for such rows the read-side earnings coincide with
`min(salary, order_amount)`; for a row already at rest with any positive
salary — including one exceeding the order amount — the aggregator returns
the salary itself (total, no crash, but also no clamping). -/
theorem salary_model_earnings (amount salary : ℚ) :
    (amount < salary → enter_salary amount salary = none) ∧
    (0 ≤ salary → salary ≤ amount →
      enter_salary amount salary = some (salary, amount - salary) ∧
      designer_earnings amount 0 salary = min salary amount) ∧
    (0 < salary → designer_earnings amount 0 salary = salary) := by
  refine ⟨?_, ?_, ?_⟩
  · intro hlt
    unfold enter_salary
    split
    · rfl
    · simp [hlt]
  · intro h0 hle
    constructor
    · unfold enter_salary
      rw [if_neg (by linarith), if_neg (by linarith)]
    · unfold designer_earnings
      rcases eq_or_lt_of_le h0 with h | h
      · rw [if_neg (by rw [← h]; exact lt_irrefl 0), if_neg (by rintro ⟨h', _⟩; exact lt_irrefl 0 h'),
          ← h, min_eq_left (by linarith)]
      · rw [if_pos h, min_eq_left hle]
  · intro h
    unfold designer_earnings
    rw [if_pos h]

/-- Witness for C5 (amended): rejection at (100, 150), acceptance at
(100, 50), unclamped read-back at (100, 150). -/
theorem salary_model_earnings_witness :
    enter_salary 100 150 = none ∧
    (enter_salary 100 50 = some (50, (100 : ℚ) - 50) ∧
      designer_earnings 100 0 50 = min 50 100) ∧
    designer_earnings 100 0 150 = 150 :=
  ⟨(salary_model_earnings 100 150).1 (by norm_num),
   (salary_model_earnings 100 50).2.1 (by norm_num) (by norm_num),
   (salary_model_earnings 100 150).2.2 (by norm_num)⟩

/-- C9: the sheets registry holds exactly seven keys, neither "general_pl"
nor "general_data" among them, so `get_sheet_config` raises `KeyError` for
both; consequently `write_to_general` and
`delete_general_row_by_operation_id` fail in their config prologue, before
any backing-store interaction (the continuation holding all store work is
never invoked, whatever it is) — so the GENERAL-sheet step of every
designer-order, pure-order and pure-income operation fails
unconditionally. -/
theorem general_config_keyerror :
    SHEETS_CONFIG.map Prod.fst =
      ["designer_data", "clients_data", "expenses", "pure_income", "general",
       "payments", "categories"] ∧
    get_sheet_config "general_pl" = none ∧
    get_sheet_config "general_data" = none ∧
    (∀ store_action : SheetConfig → SheetConfig → List (List String) × Nat,
      write_to_general_head store_action = Except.error "KeyError: general_pl") ∧
    (∀ store_action : SheetConfig → List (List String) × Bool,
      delete_general_row_head store_action = Except.error "KeyError: general_data") :=
  ⟨rfl, rfl, rfl, fun _ => rfl, fun _ => rfl⟩

/-- C2 counterexample: with debts [100, 50, 30] and payment 120 the code
produces only two allocation records — the loop breaks once the remaining
payment reaches zero (client.py 1128-1129, orders.py 1138-1139) — so the
claimed three-element list ending in "applied 0 with remaining debt 30" is
not what either the allocator or the preview loop returns. -/
theorem fifo_allocation_counterexample :
    ((payment_enter_amount fifo_orders 120).1.map
        (fun u => (u.applied, u.remaining_debt)) = [(100, 0), (20, 30)]) ∧
    ((payment_enter_amount fifo_orders 120).1.map
        (fun u => (u.applied, u.remaining_debt)) ≠ [(100, 0), (20, 30), (0, 30)]) ∧
    ((distribute_payment_fifo zero_paid_store fifo_orders 120).1.map
        (fun u => (u.applied, u.remaining_debt)) = [(100, 0), (20, 30)]) := by
  refine ⟨?_, ?_, ?_⟩ <;>
    norm_num [payment_enter_amount, payment_preview_go, distribute_payment_fifo,
      distribute_go, update_cell_j, zero_paid_store, fifo_orders, min_def]

/-- C2 (amended): with debts [100, 50, 30] oldest-first and payment 120 the
allocator produces [applied 100 → remaining 0, applied 20 → remaining 30] —
two records, no zero-application record, since the walk stops once the
remaining payment reaches zero — with leftover 0; with payment 200 it fully
clears all three debts (applied 100, 50, 30; 180 in total) and reports
leftover 20.  The persisting allocator records the same allocations as the
pure preview loop. -/
theorem fifo_allocation_scenarios :
    (payment_enter_amount fifo_orders 120).1.map
        (fun u => (u.applied, u.remaining_debt)) = [(100, 0), (20, 30)] ∧
    (payment_enter_amount fifo_orders 120).2 = 0 ∧
    (payment_enter_amount fifo_orders 200).1.map
        (fun u => (u.applied, u.remaining_debt)) = [(100, 0), (50, 0), (30, 0)] ∧
    ((payment_enter_amount fifo_orders 200).1.map (fun u => u.applied)).sum = 180 ∧
    (payment_enter_amount fifo_orders 200).2 = 20 ∧
    (distribute_payment_fifo zero_paid_store fifo_orders 120).1 =
      (payment_enter_amount fifo_orders 120).1 ∧
    (distribute_payment_fifo zero_paid_store fifo_orders 200).1 =
      (payment_enter_amount fifo_orders 200).1 := by
  refine ⟨?_, ?_, ?_, ?_, ?_, ?_, ?_⟩ <;>
    norm_num [payment_enter_amount, payment_preview_go, distribute_payment_fifo,
      distribute_go, update_cell_j, zero_paid_store, fifo_orders, min_def]

/-- C7: each GENERAL write's new wallet cells satisfy `new = prev + inflow
- outflow` — operational: `prev_t + wallet_operational - expense_amount`
(expenses are the only operational outflow); reserve: `prev_u +
wallet_reserve` (no reserve outflow exists), reading an empty stored cell
as zero — given non-negative flows and a non-negative previous reserve
balance; and three sequential writes with operational inflows 50, then an
expense of 20, then 30 store cumulative operational balances 50, 30, 60,
each derived from the immediately preceding row's stored value (zero before
the first row). -/
theorem wallet_running_balance (prev_t prev_u wOp exp wRes : ℚ)
    (hOp : 0 ≤ wOp) (hExp : 0 ≤ exp) (hRes : 0 ≤ wRes) (hU : 0 ≤ prev_u) :
    general_t_value prev_t wOp exp = prev_t + wOp - exp ∧
    read_balance_cell (general_u_value prev_u wRes) = prev_u + wRes ∧
    (general_balances [⟨50, 0, 0⟩, ⟨0, 20, 0⟩, ⟨30, 0, 0⟩]).map Prod.fst =
      [50, 30, 60] := by
  refine ⟨?_, ?_, by
    norm_num [general_balances, general_balances_go, general_t_value,
      general_u_value, read_balance_cell]⟩
  · unfold general_t_value
    split
    · rfl
    · rename_i h
      push_neg at h
      have h1 : wOp = 0 := le_antisymm h.1 hOp
      have h2 : exp = 0 := le_antisymm h.2 hExp
      rw [h1, h2]
      ring
  · unfold general_u_value read_balance_cell
    split
    · rfl
    · rename_i h
      push_neg at h
      have h1 : wRes = 0 := le_antisymm h hRes
      split
      · rw [h1, Option.getD_some, add_zero]
      · rename_i h'
        push_neg at h'
        have h2 : prev_u = 0 := le_antisymm h' hU
        rw [h1, h2]
        simp

/-- Witness for C7 at prev_t 100, prev_u 40, inflow 50, expense 20,
reserve inflow 30. -/
theorem wallet_running_balance_witness :
    general_t_value 100 50 20 = (100 : ℚ) + 50 - 20 ∧
    read_balance_cell (general_u_value 40 30) = (40 : ℚ) + 30 ∧
    (general_balances [⟨50, 0, 0⟩, ⟨0, 20, 0⟩, ⟨30, 0, 0⟩]).map Prod.fst =
      [50, 30, 60] :=
  wallet_running_balance 100 40 50 20 30 (by norm_num) (by norm_num)
    (by norm_num) (by norm_num)

/-- The allocation records produced by the persisting FIFO loop coincide
with those of the pure preview loop: they do not depend on the backing
store's paid column, only on the orders list and the amount. -/
theorem distribute_go_fst_eq_preview (l : List ClientOrder) :
    ∀ (store : PaidStore) (rem : ℚ),
      (distribute_go store rem l).1 = (payment_preview_go rem l).1 := by
  induction l with
  | nil => intro store rem; rfl
  | cons o rest ih =>
    intro store rem
    by_cases h : rem ≤ 0 <;>
      simp [distribute_go, payment_preview_go, h, ih]

/-- The store returned by the FIFO loop is the input store with one cell
write (column J := new_paid) folded in per allocation record, in order. -/
theorem distribute_go_store_foldl (l : List ClientOrder) :
    ∀ (store : PaidStore) (rem : ℚ),
      (distribute_go store rem l).2 =
        (distribute_go store rem l).1.foldl
          (fun s u => update_cell_j s u.row u.new_paid) store := by
  induction l with
  | nil => intro store rem; rfl
  | cons o rest ih =>
    intro store rem
    by_cases h : rem ≤ 0 <;>
      simp [distribute_go, h, List.foldl_cons, ih]

/-- C8 counterexample: the allocator does not leave the backing store
unchanged — after distributing a 120 payment over the demo ledger, the paid
cell of row 13 holds 100 where the input store held 0: the allocator itself
persists each allocation's new_paid (client.py 1138-1143) rather than
leaving that to the caller. -/
theorem fifo_side_effect_counterexample :
    (distribute_payment_fifo zero_paid_store fifo_orders 120).2 13 = 100 ∧
    zero_paid_store 13 = 0 ∧
    (distribute_payment_fifo zero_paid_store fifo_orders 120).2 13 ≠
      zero_paid_store 13 := by
  refine ⟨?_, ?_, ?_⟩ <;>
    norm_num [distribute_payment_fifo, distribute_go, update_cell_j,
      zero_paid_store, fifo_orders, min_def]

/-- C8 (amended): the allocation list is deterministic — it depends only on
the ledger rows and the payment amount, not on the paid-column store — but
the allocator is not side-effect-free: it returns the input store with
exactly one cell write per allocation (each record's row set to its
new_paid) folded in, performing the persistence itself instead of leaving
it to the caller. -/
theorem fifo_deterministic_and_writes (store store2 : PaidStore)
    (orders : List ClientOrder) (amount : ℚ) :
    (distribute_payment_fifo store orders amount).1 =
      (distribute_payment_fifo store2 orders amount).1 ∧
    (distribute_payment_fifo store orders amount).2 =
      (distribute_payment_fifo store orders amount).1.foldl
        (fun s u => update_cell_j s u.row u.new_paid) store := by
  simp only [distribute_payment_fifo]
  by_cases h : (orders.filter (fun o => decide (0 < o.debt))).isEmpty
  · simp [h]
  · simp [h, distribute_go_fst_eq_preview, distribute_go_store_foldl]

/-- Fuel-indexed correctness of the skip-row loop: provided some row within
the fuel window escapes the skip set, the loop lands on the least
non-skipped row at or after `r`. -/
theorem skip_past_fueled_spec (fuel : Nat) :
    ∀ (skips : List Nat) (r : Nat), (∃ m, m < fuel ∧ (r + m) ∉ skips) →
      r ≤ skip_past_fueled fuel skips r ∧
      skip_past_fueled fuel skips r ∉ skips ∧
      ∀ x, r ≤ x → x < skip_past_fueled fuel skips r → x ∈ skips := by
  induction fuel with
  | zero =>
    rintro skips r ⟨m, hm, _⟩
    exact absurd hm (Nat.not_lt_zero m)
  | succ n ih =>
    rintro skips r ⟨m, hm, hesc⟩
    by_cases hr : r ∈ skips
    · have hm0 : m ≠ 0 := by
        rintro rfl
        rw [Nat.add_zero] at hesc
        exact hesc hr
      have hstep := ih skips (r + 1) ⟨m - 1, by omega, by
        have harith : r + 1 + (m - 1) = r + m := by omega
        rw [harith]
        exact hesc⟩
      simp only [skip_past_fueled, if_pos hr]
      refine ⟨Nat.le_of_succ_le hstep.1, hstep.2.1, ?_⟩
      intro x hx hx'
      rcases Nat.eq_or_lt_of_le hx with heq | hlt
      · rw [← heq]
        exact hr
      · exact hstep.2.2 x hlt hx'
    · simp only [skip_past_fueled, if_neg hr]
      exact ⟨Nat.le_refl r, hr,
        fun x hx hx' => absurd (Nat.lt_of_le_of_lt hx hx') (lt_irrefl r)⟩

/-- Some row within `skips.length + 1` of any starting row escapes the skip
set: there cannot be more consecutive members than the list is long. -/
theorem exists_row_past_skips (skips : List Nat) (r : Nat) :
    ∃ m, m < skips.length + 1 ∧ (r + m) ∉ skips := by
  by_contra hcon
  push_neg at hcon
  have hsub : ((List.range (skips.length + 1)).map (fun m => r + m)) ⊆ skips := by
    intro x hx
    rw [List.mem_map] at hx
    obtain ⟨m, hm, rfl⟩ := hx
    exact hcon m (List.mem_range.mp hm)
  have hnd : ((List.range (skips.length + 1)).map (fun m => r + m)).Nodup := by
    refine List.Nodup.map ?_ (List.nodup_range _)
    intro a b hab
    have hab' : r + a = r + b := hab
    omega
  have hlen := (hnd.subperm hsub).length_le
  rw [List.length_map, List.length_range] at hlen
  omega

/-- The skip-row loop with its actual fuel returns the least row at or
after `r` outside the skip set. -/
theorem skip_past_spec (skips : List Nat) (r : Nat) :
    r ≤ skip_past skips r ∧ skip_past skips r ∉ skips ∧
    ∀ x, r ≤ x → x < skip_past skips r → x ∈ skips :=
  skip_past_fueled_spec (skips.length + 1) skips r (exists_row_past_skips skips r)

/-- A scan step over a non-eligible head row (skipped, or occupied)
proceeds to the tail with the enumeration index advanced. -/
theorem first_empty_scan_step (start : Nat) (skips : List Nat) (row : List String)
    (rest : List (List String)) (i : Nat)
    (h : (start + i) ∈ skips ∨ cell_is_empty row = false) :
    first_empty_scan start skips i (row :: rest) =
      first_empty_scan start skips (i + 1) rest := by
  rcases h with hmem | hnem
  · simp [first_empty_scan, hmem]
  · by_cases hm : (start + i) ∈ skips
    · simp [first_empty_scan, hm]
    · simp [first_empty_scan, hm, hnem]

/-- If position `i₀` is the first eligible one — not skipped, empty cell,
every earlier position skipped or occupied — the scan returns its row. -/
theorem first_empty_scan_found (start : Nat) (skips : List Nat) :
    ∀ (data : List (List String)) (i i₀ : Nat),
      i₀ < data.length →
      (start + (i + i₀)) ∉ skips →
      cell_is_empty (data.getD i₀ []) = true →
      (∀ j, j < i₀ → (start + (i + j)) ∈ skips ∨ cell_is_empty (data.getD j []) = false) →
      first_empty_scan start skips i data = some (start + (i + i₀)) := by
  intro data
  induction data with
  | nil =>
    intro i i₀ h
    exact absurd h (Nat.not_lt_zero _)
  | cons row rest ih =>
    intro i i₀ hlt hskip hempty hbefore
    cases i₀ with
    | zero =>
      have hempty' : cell_is_empty row = true := by simpa using hempty
      have hskip' : (start + i) ∉ skips := by simpa using hskip
      simp [first_empty_scan, hskip', hempty']
    | succ k =>
      have h0 : (start + i) ∈ skips ∨ cell_is_empty row = false := by
        have := hbefore 0 (Nat.succ_pos k)
        simpa using this
      rw [first_empty_scan_step start skips row rest i h0]
      have harith : i + 1 + k = i + (k + 1) := by omega
      have hres := ih (i + 1) k (by simpa using Nat.lt_of_succ_lt_succ hlt)
        (by rw [harith]; simpa using hskip)
        (by simpa using hempty)
        (fun j hj => by
          have hj' := hbefore (j + 1) (Nat.succ_lt_succ hj)
          have harith' : i + (j + 1) = i + 1 + j := by omega
          rw [harith'] at hj'
          simpa using hj')
      rw [hres, harith]

/-- If no position is eligible, the scan returns `none`. -/
theorem first_empty_scan_exhausted (start : Nat) (skips : List Nat) :
    ∀ (data : List (List String)) (i : Nat),
      (∀ j, j < data.length →
        (start + (i + j)) ∈ skips ∨ cell_is_empty (data.getD j []) = false) →
      first_empty_scan start skips i data = none := by
  intro data
  induction data with
  | nil => intro i _; rfl
  | cons row rest ih =>
    intro i hall
    have h0 : (start + i) ∈ skips ∨ cell_is_empty row = false := by
      have := hall 0 (Nat.succ_pos _)
      simpa using this
    rw [first_empty_scan_step start skips row rest i h0]
    refine ih (i + 1) (fun j hj => ?_)
    have hj' := hall (j + 1) (Nat.succ_lt_succ hj)
    have harith : i + (j + 1) = i + 1 + j := by omega
    rw [harith] at hj'
    simpa using hj'

/-- Characterisation of the scan body (client.py 473-510): it returns the
first row at or after the start row, outside the skip set, whose
check-column cell is empty; when no such row exists in the window it
returns the row immediately after the last row read, adjusted past skip
rows; when the read fails for lack of data it returns the start row
adjusted past skip rows (the least non-skip row at or after it).  This is
the behaviour the spec describes — it documents the intent of the function
whose prologue makes it unreachable (see `get_first_empty_row`). -/
theorem get_first_empty_row_body_spec (start : Nat) (skips : List Nat)
    (data : List (List String)) :
    (get_first_empty_row_body start skips none = skip_past skips start ∧
      start ≤ skip_past skips start ∧ skip_past skips start ∉ skips ∧
      (∀ x, start ≤ x → x < skip_past skips start → x ∈ skips)) ∧
    (∀ i₀, i₀ < data.length → (start + i₀) ∉ skips →
      cell_is_empty (data.getD i₀ []) = true →
      (∀ j, j < i₀ → (start + j) ∈ skips ∨ cell_is_empty (data.getD j []) = false) →
      get_first_empty_row_body start skips (some data) = start + i₀) ∧
    ((∀ j, j < data.length →
        (start + j) ∈ skips ∨ cell_is_empty (data.getD j []) = false) →
      get_first_empty_row_body start skips (some data) =
        skip_past skips (start + data.length) ∧
      skip_past skips (start + data.length) ∉ skips) ∧
    get_first_empty_row_body 10 [12] (some [["x"], ["y"]]) = 13 := by
  refine ⟨⟨rfl, (skip_past_spec skips start).1, (skip_past_spec skips start).2.1,
    (skip_past_spec skips start).2.2⟩, ?_, ?_, by decide⟩
  · intro i₀ hlt hskip hempty hbefore
    rcases data with _ | ⟨row, rest⟩
    · exact absurd hlt (Nat.not_lt_zero _)
    · have hscan := first_empty_scan_found start skips (row :: rest) 0 i₀ hlt
        (by simpa using hskip) hempty
        (fun j hj => by simpa using hbefore j hj)
      simp [get_first_empty_row_body, hscan]
  · intro hall
    rcases data with _ | ⟨row, rest⟩
    · exact ⟨by simp [get_first_empty_row_body, skip_past], (skip_past_spec skips _).2.1⟩
    · have hscan := first_empty_scan_exhausted start skips (row :: rest) 0
        (fun j hj => by simpa using hall j hj)
      exact ⟨by simp [get_first_empty_row_body, hscan], (skip_past_spec skips _).2.1⟩

/-- Concrete instances of the scan body's behaviour: the skip-row scenario
(start 10, skip {12}, rows 10-11 occupied, fallback past the skip row gives
13), and a found-row scenario on the Designer DATA layout (start 19, skip
{20}): with row 19 occupied and rows 20-21 empty, row 20 is skipped and 21
is returned. -/
theorem get_first_empty_row_body_examples :
    get_first_empty_row_body 10 [12] (some [["x"], ["y"]]) =
      skip_past [12] (10 + ([["x"], ["y"]] : List (List String)).length) ∧
    skip_past [12] (10 + ([["x"], ["y"]] : List (List String)).length) ∉ [12] ∧
    get_first_empty_row_body 19 [20] (some [["a"], [], []]) = 19 + 2 :=
  ⟨((get_first_empty_row_body_spec 10 [12] [["x"], ["y"]]).2.2.1 (by decide)).1,
   ((get_first_empty_row_body_spec 10 [12] [["x"], ["y"]]).2.2.1 (by decide)).2,
   (get_first_empty_row_body_spec 19 [20] [["a"], [], []]).2.1 2 (by decide) (by decide)
     (by decide) (by decide)⟩

/-- C6: the claim describes the intended behaviour — and the body of
`get_first_empty_row` (client.py 473-510) does implement it, returning 13
in the start 10 / skip {12} / rows 10-11 occupied scenario — but the code
never reaches that body: line 471 evaluates `config.check_column`, an
attribute the `SheetConfig` dataclass does not declare, and no caller
supplies the explicit `check_column` argument, so every actual invocation
(e.g. via `write_row`, client.py 566) raises `AttributeError` before any
read, regardless of the sheet's contents. -/
theorem get_first_empty_row_attribute_error :
    (∀ config : SheetConfig, sheet_config_check_column config = none) ∧
    (∀ (config : SheetConfig) (read_result : Option (List (List String))),
      get_first_empty_row none config read_result =
        Except.error "AttributeError: check_column") ∧
    get_first_empty_row_body 10 [12] (some [["x"], ["y"]]) = 13 ∧
    get_first_empty_row (some "F")
      { name := "Заказчики DATA", id_column := "A", data_columns := "F:L",
        start_row := 10, columns := [], protected_columns := [], skip_rows := [12] }
      (some [["x"], ["y"]]) = Except.ok 13 :=
  ⟨fun _ => rfl, fun _ _ => rfl, by decide, rfl⟩

/-- Counting a predicate over a reversed list. -/
theorem countP_reverse_eq {α : Type} (p : α → Bool) (l : List α) :
    l.reverse.countP p = l.countP p := by
  rw [List.countP_eq_length_filter, List.countP_eq_length_filter,
    List.filter_reverse, List.length_reverse]

/-- Writing a row at the first empty slot adds exactly one row carrying the
written operation id. -/
theorem table_count_write (t : Table) (id : String) (d : List String) :
    table_count_id (table_write t id d) id = table_count_id t id + 1 := by
  induction t with
  | nil => simp [table_write, table_count_id, List.countP_cons, cell_matches_id]
  | cons c rest ih =>
    cases c with
    | none => simp [table_write, table_count_id, List.countP_cons, cell_matches_id]
    | some p =>
      simp only [table_write, table_count_id, List.countP_cons] at ih ⊢
      omega

/-- A transaction id is findable in a table exactly when at least one of
its rows carries it. -/
theorem find_none_iff_count_zero (t : Table) (id : String) :
    find_row_by_operation_id t id = none ↔ table_count_id t id = 0 := by
  induction t with
  | nil => simp [find_row_by_operation_id, table_count_id]
  | cons c rest ih =>
    by_cases hc : cell_matches_id c id
    · simp [find_row_by_operation_id, table_count_id, List.countP_cons, hc]
    · simp only [table_count_id, List.countP_cons] at ih ⊢
      simp [find_row_by_operation_id, hc, Option.map_eq_none', ih]

/-- When a table holds at least one row with the id, the compensating
delete succeeds and clears exactly one such row. -/
theorem delete_found_count (t : Table) (id : String) :
    0 < table_count_id t id →
    (delete_row_by_operation_id t id).1 = true ∧
    table_count_id (delete_row_by_operation_id t id).2 id + 1 =
      table_count_id t id := by
  induction t with
  | nil =>
    intro h
    simp [table_count_id] at h
  | cons c rest ih =>
    intro h
    by_cases hc : cell_matches_id c id
    · have hdel : delete_row_by_operation_id (c :: rest) id = (true, none :: rest) := by
        simp [delete_row_by_operation_id, hc]
      refine ⟨by rw [hdel], ?_⟩
      rw [hdel]
      show table_count_id (none :: rest) id + 1 = table_count_id (c :: rest) id
      simp only [table_count_id]
      rw [List.countP_cons_of_neg _ rest (fun hfalse => Bool.noConfusion hfalse),
        List.countP_cons_of_pos _ rest hc]
    · rw [Bool.not_eq_true] at hc
      have hcount : table_count_id (c :: rest) id = table_count_id rest id := by
        simp only [table_count_id]
        exact List.countP_cons_of_neg _ rest (fun htrue => by rw [hc] at htrue; exact Bool.noConfusion htrue)
      have h' : 0 < table_count_id rest id := by
        rw [hcount] at h
        exact h
      obtain ⟨h1, h2⟩ := ih h'
      have hdel : delete_row_by_operation_id (c :: rest) id =
          ((delete_row_by_operation_id rest id).1,
            c :: (delete_row_by_operation_id rest id).2) := by
        simp [delete_row_by_operation_id, hc]
      refine ⟨by rw [hdel]; exact h1, ?_⟩
      rw [hdel]
      show table_count_id (c :: (delete_row_by_operation_id rest id).2) id + 1 =
        table_count_id (c :: rest) id
      have hcount2 : table_count_id (c :: (delete_row_by_operation_id rest id).2) id =
          table_count_id (delete_row_by_operation_id rest id).2 id := by
        simp only [table_count_id]
        exact List.countP_cons_of_neg _ (delete_row_by_operation_id rest id).2
          (fun htrue => by rw [hc] at htrue; exact Bool.noConfusion htrue)
      rw [hcount2, hcount]
      exact h2

/-- An operation at the head of a list adds one to the write count of its
own sheet key. -/
theorem ops_count_cons_self (op : SheetOperation) (ops : List SheetOperation) :
    ops_count_for (op :: ops) op.sheet_key = ops_count_for ops op.sheet_key + 1 := by
  simp [ops_count_for, List.countP_cons]

/-- An operation at the head of a list leaves the write count of every
other sheet key unchanged. -/
theorem ops_count_cons_other (op : SheetOperation) (ops : List SheetOperation)
    (k : String) (hk : op.sheet_key ≠ k) :
    ops_count_for (op :: ops) k = ops_count_for ops k := by
  simp [ops_count_for, List.countP_cons, beq_iff_eq, hk]

/-- Rolling back a list of committed operations whose per-table write
counts match the store clears every trace of the transaction id and reports
every operation as rolled back, in order. -/
theorem rollback_clears (txid : String) :
    ∀ (ops : List SheetOperation) (s : Store),
      (∀ op ∈ ops, op.operation_id = txid) →
      (∀ k, table_count_id (s k) txid = ops_count_for ops k) →
      (rollback s ops).2 = ops ∧
      ∀ k, table_count_id ((rollback s ops).1 k) txid = 0 := by
  intro ops
  induction ops with
  | nil =>
    intro s _ hinv
    exact ⟨rfl, fun k => by simpa [ops_count_for] using hinv k⟩
  | cons op rest ih =>
    intro s hid hinv
    have hopid : op.operation_id = txid := hid op (List.mem_cons_self op rest)
    have hkey : 0 < table_count_id (s op.sheet_key) txid := by
      rw [hinv op.sheet_key]
      simp [ops_count_for, List.countP_cons]
    obtain ⟨hd1, hd2⟩ := delete_found_count (s op.sheet_key) txid hkey
    have hinv1 : ∀ k, table_count_id
        ((store_update s op.sheet_key
          (delete_row_by_operation_id (s op.sheet_key) txid).2) k) txid =
        ops_count_for rest k := by
      intro k
      by_cases hk : k = op.sheet_key
      · subst hk
        simp only [store_update, if_true]
        have h3 := hinv op.sheet_key
        rw [ops_count_cons_self] at h3
        omega
      · simp only [store_update]
        rw [if_neg hk]
        have h3 := hinv k
        rw [ops_count_cons_other op rest k (Ne.symm hk)] at h3
        exact h3
    have ihres := ih (store_update s op.sheet_key
        (delete_row_by_operation_id (s op.sheet_key) txid).2)
      (fun o ho => hid o (List.mem_cons_of_mem op ho)) hinv1
    constructor
    · show (rollback s (op :: rest)).2 = op :: rest
      simp only [rollback]
      rw [hopid]
      simp [hd1, ihres.1]
    · intro k
      show table_count_id ((rollback s (op :: rest)).1 k) txid = 0
      simp only [rollback]
      rw [hopid]
      exact ihres.2 k

/-- When every queued write succeeds, the commit loop reports success with
the accumulated and remaining operations in queue order. -/
theorem commit_go_success_result (txid : String) :
    ∀ (ops : List (SheetOperation × Bool)) (s : Store) (acc : List SheetOperation),
      (∀ p ∈ ops, p.2 = true) →
      (commit_go s txid acc ops).1 =
        ⟨true, txid, acc.reverse ++ ops.map Prod.fst, none, none⟩ := by
  intro ops
  induction ops with
  | nil =>
    intro s acc _
    simp [commit_go]
  | cons p rest ih =>
    intro s acc hall
    obtain ⟨op, ok⟩ := p
    have hok : ok = true := hall (op, ok) (List.mem_cons_self _ _)
    subst hok
    simp only [commit_go, if_true]
    rw [ih _ (op :: acc) (fun q hq => hall q (List.mem_cons_of_mem _ hq))]
    simp [List.reverse_cons, List.append_assoc]

/-- When the queue is a prefix of succeeding writes followed by a failing
one, the commit loop stops at the failure, rolls the prefix (and any
previously accumulated writes) back, reports them with the failed operation
and the error, and leaves no trace of the transaction id in any table —
provided the store's id counts match the accumulated writes. -/
theorem commit_go_fail_result (txid : String) :
    ∀ (pre : List (SheetOperation × Bool)) (fop : SheetOperation)
      (post : List (SheetOperation × Bool)) (s : Store) (acc : List SheetOperation),
      (∀ p ∈ pre, p.2 = true) →
      (∀ p ∈ pre, p.1.operation_id = txid) →
      (∀ op ∈ acc, op.operation_id = txid) →
      (∀ k, table_count_id (s k) txid = ops_count_for acc k) →
      (commit_go s txid acc (pre ++ (fop, false) :: post)).1 =
        ⟨false, txid, acc.reverse ++ pre.map Prod.fst, some fop,
          some "write failed"⟩ ∧
      ∀ k, table_count_id
        ((commit_go s txid acc (pre ++ (fop, false) :: post)).2 k) txid = 0 := by
  intro pre
  induction pre with
  | nil =>
    intro fop post s acc _ _ hacc hinv
    have hrevid : ∀ op ∈ acc.reverse, op.operation_id = txid :=
      fun o ho => hacc o (List.mem_reverse.mp ho)
    have hinvrev : ∀ k, table_count_id (s k) txid = ops_count_for acc.reverse k := by
      intro k
      rw [hinv k]
      unfold ops_count_for
      rw [countP_reverse_eq]
    have hr := rollback_clears txid acc.reverse s hrevid hinvrev
    constructor
    · simp only [List.nil_append, commit_go]
      simp [hr.1]
    · intro k
      simp only [List.nil_append, commit_go]
      exact hr.2 k
  | cons p pre' ih =>
    intro fop post s acc hpre hpreid hacc hinv
    obtain ⟨op, ok⟩ := p
    have hok : ok = true := hpre _ (List.mem_cons_self _ _)
    subst hok
    have hopid : op.operation_id = txid := hpreid (op, true) (List.mem_cons_self _ _)
    have hinv1 : ∀ k, table_count_id
        ((store_update s op.sheet_key
          (table_write (s op.sheet_key) op.operation_id op.data)) k) txid =
        ops_count_for (op :: acc) k := by
      intro k
      by_cases hk : k = op.sheet_key
      · subst hk
        simp only [store_update, if_true]
        rw [hopid, table_count_write, hinv op.sheet_key, ops_count_cons_self]
      · simp only [store_update]
        rw [if_neg hk, hinv k, ops_count_cons_other op acc k (Ne.symm hk)]
    have hstep : commit_go s txid acc (((op, true) :: pre') ++ (fop, false) :: post) =
        commit_go (store_update s op.sheet_key
          (table_write (s op.sheet_key) op.operation_id op.data)) txid (op :: acc)
          (pre' ++ (fop, false) :: post) := by
      simp [commit_go]
    have ihres := ih fop post _ (op :: acc)
      (fun q hq => hpre q (List.mem_cons_of_mem _ hq))
      (fun q hq => hpreid q (List.mem_cons_of_mem _ hq))
      (fun o ho => by
        rcases List.mem_cons.mp ho with h | h
        · rw [h]; exact hopid
        · exact hacc o h)
      hinv1
    constructor
    · rw [hstep, ihres.1]
      simp [List.reverse_cons, List.append_assoc]
    · intro k
      rw [hstep]
      exact ihres.2 k

/-- C1: `commit()` executes the queued writes strictly in the order added.
If every write succeeds it returns success with the list of written
operations in order.  If some write fails (first failure at the end of a
succeeding prefix), it does not propagate the exception: it issues a
compensating delete, keyed by the shared transaction id, for every write of
the succeeding prefix, and returns success=false, the rolled-back writes
(exactly that prefix, in order), the failed write and the error — and
afterwards `find_row_by_operation_id` returns "not found" for the
transaction id in every table, provided the id was fresh (never present in
the store before the transaction, as a minted UUID is). -/
theorem commit_atomic_rollback (s : Store) (txid : String)
    (ops : List (SheetOperation × Bool))
    (h_id : ∀ p ∈ ops, p.1.operation_id = txid)
    (h_fresh : ∀ k, table_count_id (s k) txid = 0) :
    ((∀ p ∈ ops, p.2 = true) →
      (commit s txid ops).1 = ⟨true, txid, ops.map Prod.fst, none, none⟩) ∧
    (∀ pre fop post, ops = pre ++ (fop, false) :: post →
      (∀ p ∈ pre, p.2 = true) →
      (commit s txid ops).1 =
        ⟨false, txid, pre.map Prod.fst, some fop, some "write failed"⟩ ∧
      ∀ key, find_row_by_operation_id ((commit s txid ops).2 key) txid = none) := by
  constructor
  · intro hall
    have h := commit_go_success_result txid ops s [] hall
    simpa [commit] using h
  · intro pre fop post hsplit hpre
    have hpreid : ∀ p ∈ pre, p.1.operation_id = txid := by
      intro p hp
      exact h_id p (by rw [hsplit]; exact List.mem_append_left _ hp)
    have hinv0 : ∀ k, table_count_id (s k) txid = ops_count_for [] k := by
      intro k
      simpa [ops_count_for] using h_fresh k
    have hres := commit_go_fail_result txid pre fop post s []
      hpre hpreid (fun o ho => absurd ho (List.not_mem_nil o)) hinv0
    rw [hsplit]
    constructor
    · simpa [commit] using hres.1
    · intro key
      exact (find_none_iff_count_zero _ _).mpr (hres.2 key)

/-- Witness for C1: a two-write transaction on an empty store whose second
write fails; the result carries the rolled-back first write and the failed
second, and the transaction id is findable in neither involved table. -/
theorem commit_atomic_rollback_witness :
    (commit empty_store "tx1" [(demo_op1, true), (demo_op2, false)]).1 =
      ⟨false, "tx1", [demo_op1], some demo_op2, some "write failed"⟩ ∧
    find_row_by_operation_id
      ((commit empty_store "tx1" [(demo_op1, true), (demo_op2, false)]).2
        "designer_data") "tx1" = none ∧
    find_row_by_operation_id
      ((commit empty_store "tx1" [(demo_op1, true), (demo_op2, false)]).2
        "clients_data") "tx1" = none := by
  have h := (commit_atomic_rollback empty_store "tx1"
      [(demo_op1, true), (demo_op2, false)] (by decide) (fun k => rfl)).2
    [(demo_op1, true)] demo_op2 [] rfl (by decide)
  exact ⟨h.1, h.2 "designer_data", h.2 "clients_data"⟩

/-- C10: committing a transaction with no queued operations returns
success, the transaction's operation id and an empty committed list, and
leaves the backing store untouched (no store calls are made). -/
theorem commit_empty_transaction (s : Store) (txid : String) :
    commit s txid [] = (⟨true, txid, [], none, none⟩, s) := rfl

end Yappi
